import Mathlib

/-!
Shallow embedding of the two harvest scripts of this repository,
src/scripts/fetch-funko-hp.js and src/scripts/fetch-villagers.js.
JSON objects are modelled as association lists, JS undefined as Option,
network and file-system effects as explicit environment parameters.
-/

namespace Scripts

/-- JS property lookup on an object modelled as an association list:
obj.k is the value stored at key k, or undefined (none). -/
def jsGet : List (String × String) → String → Option String
  | [], _ => none
  | (k, v) :: rest, key => if k = key then some v else jsGet rest key

/-- How a possibly-undefined JS value ends up in a URLSearchParams entry:
undefined is stringified as "undefined". -/
def jsStr (o : Option String) : String := o.getD "undefined"

/-- Adding a computed property to an object literal: override the key in
place when it is already present, otherwise append it. -/
def upsert : List (String × String) → String → String → List (String × String)
  | [], k, v => [(k, v)]
  | (k', v') :: rest, k, v => if k' = k then (k, v) :: rest else (k', v') :: upsert rest k v

/-- One element of the imageinfo array of a page record; url may be absent. -/
structure ImageInfo where
  url : Option String
  deriving DecidableEq

/-- A raw page record of the query response. -/
structure ApiPage where
  title : Option String
  imageinfo : Option (List ImageInfo)
  deriving DecidableEq

/-- The query sub-object; pages holds Object.values of the keyed pages
object, in order. -/
structure ApiQuery where
  pages : Option (List ApiPage)
  deriving DecidableEq

/-- A parsed API response body: optional query.pages and the optional
continue object, the latter a mapping of continuation keys to values. -/
structure ApiData where
  query : Option ApiQuery
  «continue» : Option (List (String × String))
  deriving DecidableEq

def PAGE_TITLE_FUNKO : String := "Pop!_Harry_Potter"

def PAGE_TITLE_VILLAGERS : String := "Villager_list_(New_Horizons)"

/-- The fixed URLSearchParams entries built on every iteration of the
pagination loop (fetch-funko-hp.js lines 41-48, fetch-villagers.js 42-49). -/
def API_PARAMS (pageTitle : String) : List (String × String) :=
  [("action", "query"), ("generator", "images"), ("gimlimit", "500"),
   ("titles", pageTitle), ("prop", "imageinfo"), ("iiprop", "url"), ("format", "json")]

/-- fetch-funko-hp.js line 49 / fetch-villagers.js line 50: the spread adds
the single entry with key continueToken.key and value continueToken.value
when continueToken is truthy (any object, even an empty one, is truthy);
property lookups that miss yield undefined, which stringifies. -/
def paramsWithContinue (base : List (String × String)) :
    Option (List (String × String)) → List (String × String)
  | none => base
  | some c => upsert base (jsStr (jsGet c "key")) (jsStr (jsGet c "value"))

inductive FetchErr where
  | transport
  | parseFailure
  deriving DecidableEq

structure HttpResp where
  statusCode : Nat
  body : String
  transportErr : Bool
  deriving DecidableEq

/-- fetch-funko-hp.js lines 20-34 / fetch-villagers.js lines 21-35: buffer
the body and JSON.parse it; the status code of the response is never
examined. JSON.parse is the environment parameter parse. -/
def fetchJson (parse : String → Option ApiData) (r : HttpResp) : Except FetchErr ApiData :=
  if r.transportErr then .error .transport
  else
    match parse r.body with
    | some d => .ok d
    | none => .error .parseFailure

/-- Helper for JS String.prototype.includes on char lists. -/
def strContainsAux : List Char → List Char → Bool
  | pat, [] => pat.isEmpty
  | pat, c :: rest => pat.isPrefixOf (c :: rest) || strContainsAux pat rest

/-- JS String.prototype.includes. -/
def strContains (s pat : String) : Bool := strContainsAux pat.toList s.toList

/-- Character-wise lower-casing (JS toLowerCase, and the i regex flag). -/
def lowerStr (s : String) : String := String.mk (s.toList.map Char.toLower)

def startsWithStr (s p : String) : Bool := p.toList.isPrefixOf s.toList

def endsWithStr (s p : String) : Bool := p.toList.isSuffixOf s.toList

/-- JS String.prototype.trim. -/
def trimStr (s : String) : String :=
  String.mk (((s.toList.dropWhile Char.isWhitespace).reverse.dropWhile Char.isWhitespace).reverse)

/-- The case-insensitive extension match of fetch-funko-hp.js line 59. -/
def hasImageExt (t : String) : Bool :=
  endsWithStr (lowerStr t) ".png" || endsWithStr (lowerStr t) ".jpg" ||
  endsWithStr (lowerStr t) ".jpeg" || endsWithStr (lowerStr t) ".webp"

/-- Dropping a final dot-extension, a final dot followed by one or more
non-dot characters, as the first replace of fetch-funko-hp.js line 64. -/
def dropExt (f : String) : String :=
  let rev := f.toList.reverse
  let ext := rev.takeWhile (fun c => c ≠ '.')
  if ext.length ≠ 0 ∧ ext.length < rev.length then
    String.mk (f.toList.take (f.toList.length - ext.length - 1))
  else f

/-- The global replace of the escaped separator sequence by a literal
underscore (left-to-right, non-overlapping). -/
def unescape5F : List Char → List Char
  | '%' :: '5' :: 'F' :: rest => '_' :: unescape5F rest
  | c :: rest => c :: unescape5F rest
  | [] => []

/-- fetch-funko-hp.js line 64: strip the extension, unescape the encoded
separator, and turn underscores into spaces. -/
def funkoName (filename : String) : String :=
  String.mk ((unescape5F (dropExt filename).toList).map fun c => if c = '_' then ' ' else c)

/-- The character class of fetch-funko-hp.js line 97. -/
def isUnsafeChar (c : Char) : Bool :=
  c = '<' || c = '>' || c = ':' || c = '"' || c = '/' || c = '\\' ||
  c = '|' || c = '?' || c = '*'

/-- fetch-funko-hp.js lines 96-98. -/
def safeFilename (f : String) : String :=
  String.mk (unescape5F (f.toList.map fun c => if isUnsafeChar c then '_' else c))

structure RawImage where
  name : String
  filename : String
  url : String
  deriving DecidableEq

/-- fetch-funko-hp.js lines 54-66: one iteration of the per-page loop,
returning the pushed record when the page survives all filters. -/
def funkoExtractPage (page : ApiPage) : Option RawImage :=
  let title := page.title.getD ""
  if !startsWithStr title "File:" then none
  else
    match page.imageinfo.bind List.head? with
    | none => none
    | some ii =>
      match ii.url with
      | none => none
      | some imgUrl =>
        if !hasImageExt title then none
        else
          let filename := trimStr (title.drop 5)
          if strContains filename "Pack" || strContains filename "poster" ||
             strContains filename "Poster" || strContains filename "Deluxe" ||
             strContains filename "Moment" then none
          else some ⟨funkoName filename, filename, imgUrl⟩

/-- Object.values of data.query pages, or the empty collection when the
query object or its pages are absent (line 54). -/
def pagesOf (d : ApiData) : List ApiPage :=
  match d.query with
  | none => []
  | some q => q.pages.getD []

def funkoExtract (pages : List ApiPage) : List RawImage :=
  pages.filterMap funkoExtractPage

/-- fetch-funko-hp.js lines 36-72 / fetch-villagers.js 37-73: the do/while
pagination loop, run against a scripted sequence of fetchJson outcomes, one
per iteration. A thrown fetch failure aborts the whole loop with that error;
none means the scripted responses ran out with the loop still demanding
another page. -/
def runDriver (extract : ApiData → List β) :
    List (Except FetchErr ApiData) → List β → Option (Except FetchErr (List β))
  | [], _ => none
  | Except.error e :: _, _ => some (.error e)
  | Except.ok d :: rest, acc =>
    let acc2 := acc ++ extract d
    match d.«continue» with
    | none => some (.ok acc2)
    | some _ => runDriver extract rest acc2

/-- Case-insensitive prefix strip (the i flag of the regex). -/
def stripPrefixCI (p s : String) : Option String :=
  if startsWithStr (lowerStr s) (lowerStr p) then some (s.drop p.length) else none

/-- Case-insensitive suffix strip (the i flag of the regex). -/
def stripSuffixCI (suf s : String) : Option String :=
  if endsWithStr (lowerStr s) (lowerStr suf) then some (s.dropRight suf.length) else none

/-- The regex of fetch-villagers.js line 57 with the i flag. After the
File:NH- prefix and the .png suffix are removed, the greedy first group makes
the decomposition of the middle unique, since at most one of the three texts
the tail can denote is a suffix of the middle; group 1 must be nonempty, and
the captured name is trimmed at line 59. -/
def parseVillagerTitle (title : String) : Option (String × Bool) :=
  match stripPrefixCI "File:NH-" title with
  | none => none
  | some rest =>
    match stripSuffixCI ".png" rest with
    | none => none
    | some mid =>
      match stripSuffixCI " poster" mid with
      | some name => if name = "" then none else some (trimStr name, false)
      | none =>
        match stripSuffixCI " poster sq" mid with
        | some name => if name = "" then none else some (trimStr name, true)
        | none =>
          match stripSuffixCI " postersq" mid with
          | some name => if name = "" then none else some (trimStr name, true)
          | none => none

structure VRec where
  name : String
  url : String
  isSq : Bool
  deriving DecidableEq

/-- fetch-villagers.js lines 55-62: one iteration of the per-page loop. -/
def villagersExtractPage (page : ApiPage) : Option VRec :=
  let title := page.title.getD ""
  match parseVillagerTitle title with
  | none => none
  | some (name, isSq) =>
    match page.imageinfo.bind List.head? with
    | none => none
    | some ii =>
      match ii.url with
      | none => none
      | some imgUrl => some ⟨name, imgUrl, isSq⟩

/-- JS Map.prototype.get on a map modelled as an insertion-ordered
association list. -/
def mapGet : List (String × VRec) → String → Option VRec
  | [], _ => none
  | (k, v) :: rest, key => if k = key then some v else mapGet rest key

/-- JS Map.prototype.set: update in place, else append, keeping insertion
order. -/
def mapSet : List (String × VRec) → String → VRec → List (String × VRec)
  | [], k, v => [(k, v)]
  | (k', v') :: rest, k, v =>
    if k' = k then (k, v) :: rest else (k', v') :: mapSet rest k v

/-- fetch-villagers.js lines 63-66: store the record unless one is already
present that is not strictly worse (the stored record is only replaced when
it is the square variant and the new one is not). -/
def villagerStep (m : List (String × VRec)) (r : VRec) : List (String × VRec) :=
  match mapGet m r.name with
  | none => mapSet m r.name r
  | some existing => if existing.isSq && !r.isSq then mapSet m r.name r else m

/-- Code-point lexicographic order on char lists. -/
def chListLe : List Char → List Char → Bool
  | [], _ => true
  | _ :: _, [] => false
  | a :: as, b :: bs => if a = b then chListLe as bs else decide (a < b)

/-- Total order on names, modelling the localeCompare comparator of
fetch-villagers.js line 72 as code-point order. -/
def strLe (a b : String) : Bool := chListLe a.toList b.toList

/-- Stable insertion into a sorted list: the new element goes after every
element that compares less-or-equal. -/
def insertSorted (x : VRec) : List VRec → List VRec
  | [] => [x]
  | y :: ys => if strLe y.name x.name then y :: insertSorted x ys else x :: y :: ys

/-- Stable sort by name, modelling Array.prototype.sort with the
localeCompare comparator (line 72). -/
def sortVillagers (l : List VRec) : List VRec :=
  l.foldl (fun acc x => insertSorted x acc) []

/-- fetch-villagers.js lines 55-72: per-page extraction, the dedup map,
Array.from of its values, and the final sort. -/
def villagersHarvest (pages : List ApiPage) : List VRec :=
  sortVillagers (((pages.filterMap villagersExtractPage).foldl villagerStep []).map Prod.snd)

/-- A scripted response of the binary endpoint: status code, optional
Location header, the body chunks the stream delivers, and whether the stream
raises an error after delivering them. -/
structure NetResp where
  statusCode : Nat
  location : Option String
  chunks : List String
  interrupted : Bool
  deriving DecidableEq

inductive DlErr where
  | transport
  | httpStatus (code : Nat)
  | streamErr
  deriving DecidableEq

/-- fetch-funko-hp.js lines 74-94 / fetch-villagers.js 75-95: the recursive
redirect-following download. The fuel argument bounds only the recursion
depth of this model: a none result means the recursion of the script has not
terminated within that depth. The Option String threaded through is the
content of the destination file (none = no file). On a 200 response the
write stream is created at the destination, so the delivered chunks are on
disk whether or not the stream then errors. -/
def downloadImage (env : String → Option NetResp) :
    Nat → String → Option String → Option (Except DlErr Unit × Option String)
  | 0, _, _ => none
  | fuel + 1, url, file =>
    match env url with
    | none => some (.error .transport, file)
    | some r =>
      if r.statusCode = 301 ∨ r.statusCode = 302 then
        downloadImage env fuel (jsStr r.location) file
      else if r.statusCode ≠ 200 then
        some (.error (.httpStatus r.statusCode), file)
      else if r.interrupted then
        some (.error .streamErr, some (String.join r.chunks))
      else
        some (.ok (), some (String.join r.chunks))

/-- Six consecutive 302 responses and then a 200 with body BODY. -/
def chainEnv : String → Option NetResp := fun u =>
  if u = "u0" then some ⟨302, some "u1", [], false⟩
  else if u = "u1" then some ⟨302, some "u2", [], false⟩
  else if u = "u2" then some ⟨302, some "u3", [], false⟩
  else if u = "u3" then some ⟨302, some "u4", [], false⟩
  else if u = "u4" then some ⟨302, some "u5", [], false⟩
  else if u = "u5" then some ⟨302, some "u6", [], false⟩
  else if u = "u6" then some ⟨200, none, ["BODY"], false⟩
  else none

/-- Every request 302-redirects back to the same URL. -/
def loopEnv : String → Option NetResp := fun _ => some ⟨302, some "u0", [], false⟩

/-- A 200 response whose stream delivers the chunk ab and then errors. -/
def interruptedEnv : String → Option NetResp := fun _ => some ⟨200, none, ["ab"], true⟩

/-- Every request answers a plain 500. -/
def status500Env : String → Option NetResp := fun _ => some ⟨500, none, [], false⟩

/-- The mutable run state of main: the seen set, the accumulating manifest
list, the files written so far this run, the two counters, the per-item
console lines, and the URLs handed to downloadImage. -/
structure RunState where
  seen : List String
  manifest : List (String × String)
  files : List String
  downloaded : Nat
  skipped : Nat
  itemLines : List String
  fetched : List String
  deriving DecidableEq

def initState : RunState := ⟨[], [], [], 0, 0, [], []⟩

def OUT_DIR_FUNKO : String := "../public/images/funko-hp"

def OUT_DIR_VILLAGERS : String := "../public/images/villagers"

def joinPath (dir f : String) : String := dir ++ "/" ++ f

/-- existsSync at loop time: a file exists when it was in the output
directory initially or was written earlier in this run. -/
def existsNow (ex0 : String → Bool) (files : List String) (p : String) : Bool :=
  ex0 p || decide (p ∈ files)

/-- fetch-funko-hp.js lines 119-139, the body of the item loop for one item:
dedup on the safe filename, push the manifest entry, then skip when the file
exists, otherwise download. dl gives the downloadImage outcome per url and
filepath, an Except.error carrying err.message. -/
def funkoStep (ex0 : String → Bool) (dl : String → String → Except String Unit)
    (st : RunState) (r : RawImage) : RunState :=
  let safe := safeFilename r.filename
  if safe ∈ st.seen then st
  else
    let filepath := joinPath OUT_DIR_FUNKO safe
    let st1 : RunState :=
      { st with seen := st.seen ++ [safe], manifest := st.manifest ++ [(r.name, safe)] }
    if existsNow ex0 st1.files filepath then
      { st1 with skipped := st1.skipped + 1,
                 itemLines := st1.itemLines ++ ["  - " ++ r.name ++ " (skipped)"] }
    else
      match dl r.url filepath with
      | .ok _ =>
        { st1 with files := st1.files ++ [filepath],
                   downloaded := st1.downloaded + 1,
                   fetched := st1.fetched ++ [r.url],
                   itemLines := st1.itemLines ++ ["  ✓ " ++ r.name] }
      | .error msg =>
        { st1 with fetched := st1.fetched ++ [r.url],
                   itemLines := st1.itemLines ++ ["  ✗ " ++ r.name ++ ": " ++ msg] }

def funkoLoop (ex0 : String → Bool) (dl : String → String → Except String Unit) :
    List RawImage → RunState → RunState
  | [], st => st
  | r :: rest, st => funkoLoop ex0 dl rest (funkoStep ex0 dl st r)

def FALLBACK_BASE : String := "https://static.wikia.nocookie.net/funko/images"

/-- fetch-funko-hp.js lines 146-171: the hard-coded fallback list. -/
def getFallbackImages : List RawImage :=
  [⟨"Harry Potter", "HarryPotter.png", FALLBACK_BASE ++ "/9/9c/HarryPotter.png/revision/latest"⟩,
   ⟨"Ron Weasley", "RonWeasley.png", FALLBACK_BASE ++ "/1/14/RonWeasley.png/revision/latest"⟩,
   ⟨"Hermione Granger", "HermioneGranger.png", FALLBACK_BASE ++ "/a/a4/HermioneGranger.png/revision/latest"⟩,
   ⟨"Albus Dumbledore", "Albus_Dumbledore.png", FALLBACK_BASE ++ "/d/da/Albus_Dumbledore.png/revision/latest"⟩,
   ⟨"Severus Snape", "Severus_Snape.png", FALLBACK_BASE ++ "/6/65/Severus_Snape.png/revision/latest"⟩,
   ⟨"Lord Voldemort", "Lord_Voldemort.png", FALLBACK_BASE ++ "/0/01/Lord_Voldemort.png/revision/latest"⟩,
   ⟨"Rubeus Hagrid", "Rubeus_Hagrid.png", FALLBACK_BASE ++ "/f/fe/Rubeus_Hagrid.png/revision/latest"⟩,
   ⟨"Draco Malfoy", "Draco_Malfoy.jpg", FALLBACK_BASE ++ "/4/41/51KbEmPfiVL._SX355_.jpg/revision/latest"⟩,
   ⟨"Luna Lovegood", "Luna_Lovegood.jpg", FALLBACK_BASE ++ "/2/2e/S-l300.jpg/revision/latest"⟩,
   ⟨"Dobby", "Dobby.jpg", FALLBACK_BASE ++ "/a/ae/Funko-Pop-Harry-Potter-17-Dobby.jpg/revision/latest"⟩,
   ⟨"Sirius Black", "Sirius_Black.jpg", FALLBACK_BASE ++ "/c/cd/Figurine-funko-pop-harry-potter-sirius-black.jpg/revision/latest"⟩,
   ⟨"Neville Longbottom", "Neville_Longbottom.jpg", FALLBACK_BASE ++ "/1/14/Funko-Pop-Harry-Potter-22-Neville-Longbottom-Barnes-Noble-Pre-Release.jpg/revision/latest"⟩,
   ⟨"Bellatrix Lestrange", "Bellatrix_Lestrange.jpg", FALLBACK_BASE ++ "/1/11/Funko-Pop-Harry-Potter-35-Bellatrix-Lestrange.jpg/revision/latest"⟩,
   ⟨"Minerva McGonagall", "Minerva_McGonagall.jpg", FALLBACK_BASE ++ "/c/ce/Funko-Pop-Harry-Potter-37-Minerva-McGonagall.jpg/revision/latest"⟩,
   ⟨"Fred Weasley", "Fred_Weasley.jpg", FALLBACK_BASE ++ "/8/8a/Funko-Pop-Harry-Potter-33-Fred-Weasley.jpg/revision/latest"⟩,
   ⟨"George Weasley", "George_Weasley.jpg", FALLBACK_BASE ++ "/2/26/Funko-Pop-Harry-Potter-34-George-Weasley.jpg/revision/latest"⟩,
   ⟨"Remus Lupin", "Remus_Lupin.jpg", FALLBACK_BASE ++ "/7/72/Funko-Pop-Harry-Potter-45-Remus-Lupin.jpg/revision/latest"⟩,
   ⟨"Ginny Weasley", "Ginny_Weasley.jpg", FALLBACK_BASE ++ "/4/48/Funko-Pop-Harry-Potter-46-Ginny-Weasley.jpg/revision/latest"⟩,
   ⟨"Hedwig", "Hedwig.jpg", FALLBACK_BASE ++ "/a/a1/76-_Hedwig.jpg/revision/latest"⟩,
   ⟨"Buckbeak", "Buckbeak.jpg", FALLBACK_BASE ++ "/c/c1/104-_Buckbeat.jpg/revision/latest"⟩]

/-- The outcome of one run: final loop state, whether the fallback list was
substituted, and the final summary line. -/
structure RunResult where
  state : RunState
  fallbackUsed : Bool
  summary : String
  deriving DecidableEq

/-- fetch-funko-hp.js main, lines 100-144, with the harvest outcome of
fetchAllFunkoImages and the i/o environment passed explicitly: any thrown
harvest error is caught and replaced by the fallback list, then the item
loop runs and the summary line is printed with the two counters. -/
def funkoMain (harvest : Except String (List RawImage)) (ex0 : String → Bool)
    (dl : String → String → Except String Unit) : RunResult :=
  let images := match harvest with
    | .ok l => l
    | .error _ => getFallbackImages
  let fb := match harvest with
    | .ok _ => false
    | .error _ => true
  let st := funkoLoop ex0 dl images initState
  ⟨st, fb, "\nDone! Downloaded " ++ toString st.downloaded ++ ", skipped " ++ toString st.skipped ++ "."⟩

/-- The whitespace class of the regex at fetch-villagers.js line 110. -/
def isWs (c : Char) : Bool := c = ' ' || c = '\t' || c = '\n' || c = '\r'

/-- Replace every maximal run of whitespace with a single underscore; the
flag records whether the previous character was part of such a run. -/
def collapseWsAux : Bool → List Char → List Char
  | _, [] => []
  | prevWs, c :: rest =>
    if isWs c then
      if prevWs then collapseWsAux true rest
      else '_' :: collapseWsAux true rest
    else c :: collapseWsAux false rest

def collapseWs (s : String) : String := String.mk (collapseWsAux false s.toList)

/-- fetch-villagers.js line 110. -/
def villagerFilename (name : String) : String :=
  "NH-" ++ collapseWs name ++ "_poster.png"

/-- fetch-villagers.js lines 109-127, the body of the item loop for one
item: push the manifest entry, then skip when the file exists, otherwise
download. There is no dedup at this level. -/
def villagersStep (ex0 : String → Bool) (dl : String → String → Except String Unit)
    (st : RunState) (v : VRec) : RunState :=
  let filename := villagerFilename v.name
  let filepath := joinPath OUT_DIR_VILLAGERS filename
  let st1 : RunState := { st with manifest := st.manifest ++ [(v.name, filename)] }
  if existsNow ex0 st1.files filepath then
    { st1 with skipped := st1.skipped + 1,
               itemLines := st1.itemLines ++ ["  - " ++ v.name ++ " (skipped, exists)"] }
  else
    match dl v.url filepath with
    | .ok _ =>
      { st1 with files := st1.files ++ [filepath],
                 downloaded := st1.downloaded + 1,
                 fetched := st1.fetched ++ [v.url],
                 itemLines := st1.itemLines ++ ["  ✓ " ++ v.name] }
    | .error msg =>
      { st1 with fetched := st1.fetched ++ [v.url],
                 itemLines := st1.itemLines ++ ["  ✗ " ++ v.name ++ ": " ++ msg] }

def villagersLoop (ex0 : String → Bool) (dl : String → String → Except String Unit) :
    List VRec → RunState → RunState
  | [], st => st
  | v :: rest, st => villagersLoop ex0 dl rest (villagersStep ex0 dl st v)

/-- fetch-villagers.js main, lines 97-132: the harvest call is not wrapped
in any try/catch, so a harvest failure aborts main before the item loop and
before any manifest write; there is no fallback list in this script. -/
def villagersMain (harvest : Except String (List VRec)) (ex0 : String → Bool)
    (dl : String → String → Except String Unit) : Except String RunResult :=
  match harvest with
  | .error e => .error e
  | .ok images =>
    let st := villagersLoop ex0 dl images initState
    .ok ⟨st, false,
      "\nDone! Downloaded " ++ toString st.downloaded ++ ", skipped " ++ toString st.skipped ++ "."⟩

/-- JSON string escaping of the two characters that can occur in these
fields and need escaping. -/
def escJsonChar (c : Char) : String :=
  if c = '"' then "\\\"" else if c = '\\' then "\\\\" else String.mk [c]

def escJson (s : String) : String := String.join (s.toList.map escJsonChar)

/-- One manifest object as serialized by JSON.stringify with indent 2. -/
def manifestEntryJson (p : String × String) : String :=
  "  \x7b\n    \"name\": \"" ++ escJson p.1 ++ "\",\n    \"filename\": \"" ++
    escJson p.2 ++ "\"\n  \x7d"

/-- JSON.stringify of the manifest array with indent 2 (the byte content of
the file written at fetch-funko-hp.js line 141 / fetch-villagers.js 129). -/
def manifestJson (l : List (String × String)) : String :=
  match l with
  | [] => "[]"
  | _ => "[\n" ++ String.intercalate ",\n" (l.map manifestEntryJson) ++ "\n]"

/-- The name and safe-filename pairs the funko item loop pushes: the first
occurrence per safe filename, in arrival order. -/
def dedupPairs (seen : List String) : List RawImage → List (String × String)
  | [] => []
  | r :: rest =>
    let safe := safeFilename r.filename
    if safe ∈ seen then dedupPairs seen rest
    else (r.name, safe) :: dedupPairs (seen ++ [safe]) rest

/-- Concrete five-item scenario data. -/
def item (i : Nat) : RawImage :=
  ⟨"N" ++ toString i, "N" ++ toString i ++ ".png", "u" ++ toString i⟩

def items5 : List RawImage := [item 1, item 2, item 3, item 4, item 5]

def noFiles : String → Bool := fun _ => false

def allFiles : String → Bool := fun _ => true

def dlAllOk : String → String → Except String Unit := fun _ _ => .ok ()

/-- The download of the third item answers a plain 500; err.message of the
rejection at fetch-funko-hp.js line 82 is the HTTP 500 text. -/
def dlFail3 : String → String → Except String Unit :=
  fun url _ => if url = "u3" then .error "HTTP 500" else .ok ()

def dlAllFail : String → String → Except String Unit := fun _ _ => .error "HTTP 500"

/-- A page record with the given title and a single imageinfo url. -/
def pageOf (t u : String) : ApiPage := ⟨some t, some [⟨some u⟩]⟩

/-- Two titles whose captured names differ only as space versus underscore,
so the derived canonical filenames coincide. -/
def vpagesCollide : List ApiPage :=
  [pageOf "File:NH-A B poster.png" "ua", pageOf "File:NH-A_B poster.png" "ub"]

/-- A parsed outage body: valid JSON carrying neither query.pages nor a
continue object. -/
def outageData : ApiData := ⟨none, none⟩

/-- A JSON.parse oracle that parses exactly the body named outage. -/
def outageParse : String → Option ApiData :=
  fun s => if s = "outage" then some outageData else none

/-! Helper lemmas about the funko item loop. -/

theorem funkoStep_seen_mem (ex0 : String → Bool) (dl : String → String → Except String Unit)
    (st : RunState) (r : RawImage) (h : safeFilename r.filename ∈ st.seen) :
    funkoStep ex0 dl st r = st := by
  simp [funkoStep, h]

theorem funkoStep_seen_manifest (ex0 : String → Bool) (dl : String → String → Except String Unit)
    (st : RunState) (r : RawImage) (h : safeFilename r.filename ∉ st.seen) :
    (funkoStep ex0 dl st r).seen = st.seen ++ [safeFilename r.filename] ∧
    (funkoStep ex0 dl st r).manifest = st.manifest ++ [(r.name, safeFilename r.filename)] := by
  simp only [funkoStep]
  rw [if_neg h]
  constructor
  · split
    · rfl
    · split <;> rfl
  · split
    · rfl
    · split <;> rfl

theorem funkoStep_exists (ex0 : String → Bool) (dl : String → String → Except String Unit)
    (st : RunState) (r : RawImage) (h1 : safeFilename r.filename ∉ st.seen)
    (h2 : ex0 (joinPath OUT_DIR_FUNKO (safeFilename r.filename)) = true) :
    funkoStep ex0 dl st r = ⟨st.seen ++ [safeFilename r.filename],
      st.manifest ++ [(r.name, safeFilename r.filename)], st.files, st.downloaded,
      st.skipped + 1, st.itemLines ++ ["  - " ++ r.name ++ " (skipped)"], st.fetched⟩ := by
  simp [funkoStep, existsNow, h1, h2]

theorem funkoLoop_manifest_seen (items : List RawImage) :
    ∀ (ex0 : String → Bool) (dl : String → String → Except String Unit) (st : RunState),
    (funkoLoop ex0 dl items st).manifest = st.manifest ++ dedupPairs st.seen items ∧
    (funkoLoop ex0 dl items st).seen = st.seen ++ (dedupPairs st.seen items).map Prod.snd := by
  induction items with
  | nil => intro ex0 dl st; simp [funkoLoop, dedupPairs]
  | cons r rest ih =>
    intro ex0 dl st
    simp only [funkoLoop, dedupPairs]
    by_cases h : safeFilename r.filename ∈ st.seen
    · rw [if_pos h, funkoStep_seen_mem ex0 dl st r h]
      exact ih ex0 dl st
    · rw [if_neg h]
      obtain ⟨hs, hm⟩ := funkoStep_seen_manifest ex0 dl st r h
      obtain ⟨ihm, ihs⟩ := ih ex0 dl (funkoStep ex0 dl st r)
      refine ⟨?_, ?_⟩
      · rw [ihm, hm, hs, List.append_assoc, List.singleton_append]
      · rw [ihs, hs, List.append_assoc, List.singleton_append, List.map_cons]

theorem dedupPairs_not_mem (items : List RawImage) :
    ∀ (seen : List String) (x : String), x ∈ seen →
    x ∉ (dedupPairs seen items).map Prod.snd := by
  induction items with
  | nil => intro seen x _; simp [dedupPairs]
  | cons r rest ih =>
    intro seen x hx
    simp only [dedupPairs]
    by_cases h : safeFilename r.filename ∈ seen
    · rw [if_pos h]; exact ih seen x hx
    · rw [if_neg h]
      simp only [List.map_cons, List.mem_cons, not_or]
      exact ⟨fun he => h (he ▸ hx), ih (seen ++ [safeFilename r.filename]) x (by simp [hx])⟩

theorem dedupPairs_snd_nodup (items : List RawImage) :
    ∀ seen : List String, ((dedupPairs seen items).map Prod.snd).Nodup := by
  induction items with
  | nil => intro seen; simp [dedupPairs]
  | cons r rest ih =>
    intro seen
    simp only [dedupPairs]
    by_cases h : safeFilename r.filename ∈ seen
    · rw [if_pos h]; exact ih seen
    · rw [if_neg h]
      simp only [List.map_cons, List.nodup_cons]
      exact ⟨dedupPairs_not_mem rest (seen ++ [safeFilename r.filename]) _ (by simp), ih _⟩

theorem funkoLoop_inv (items : List RawImage) :
    ∀ (ex0 : String → Bool) (dl : String → String → Except String Unit) (st : RunState),
    (∀ r ∈ items, ex0 (joinPath OUT_DIR_FUNKO (safeFilename r.filename)) = true) →
    st.fetched = [] → st.downloaded = 0 → st.skipped = st.manifest.length →
    (funkoLoop ex0 dl items st).fetched = [] ∧
    (funkoLoop ex0 dl items st).downloaded = 0 ∧
    (funkoLoop ex0 dl items st).skipped = (funkoLoop ex0 dl items st).manifest.length := by
  induction items with
  | nil =>
    intro ex0 dl st _ hf hd hs
    exact ⟨hf, hd, by simpa [funkoLoop] using hs⟩
  | cons r rest ih =>
    intro ex0 dl st hex hf hd hs
    have hstep : funkoLoop ex0 dl (r :: rest) st = funkoLoop ex0 dl rest (funkoStep ex0 dl st r) :=
      rfl
    rw [hstep]
    by_cases h : safeFilename r.filename ∈ st.seen
    · rw [funkoStep_seen_mem ex0 dl st r h]
      exact ih ex0 dl st (fun x hx => hex x (List.mem_cons_of_mem r hx)) hf hd hs
    · have hex0 : ex0 (joinPath OUT_DIR_FUNKO (safeFilename r.filename)) = true :=
        hex r (List.mem_cons_self r rest)
      rw [funkoStep_exists ex0 dl st r h hex0]
      refine ih ex0 dl _ (fun x hx => hex x (List.mem_cons_of_mem r hx)) hf hd ?_
      simp [hs]

theorem funkoMain_state (harvest : Except String (List RawImage)) (ex0 : String → Bool)
    (dl : String → String → Except String Unit) :
    (funkoMain harvest ex0 dl).state =
      funkoLoop ex0 dl
        (match harvest with | .ok l => l | .error _ => getFallbackImages) initState := by
  cases harvest <;> simp only [funkoMain]

/-! Helper lemmas about the villagers item loop. -/

theorem villagersStep_manifest (ex0 : String → Bool) (dl : String → String → Except String Unit)
    (st : RunState) (v : VRec) :
    (villagersStep ex0 dl st v).manifest = st.manifest ++ [(v.name, villagerFilename v.name)] := by
  simp only [villagersStep]
  split
  · rfl
  · split <;> rfl

theorem villagersStep_exists (ex0 : String → Bool) (dl : String → String → Except String Unit)
    (st : RunState) (v : VRec)
    (h2 : ex0 (joinPath OUT_DIR_VILLAGERS (villagerFilename v.name)) = true) :
    villagersStep ex0 dl st v = ⟨st.seen, st.manifest ++ [(v.name, villagerFilename v.name)],
      st.files, st.downloaded, st.skipped + 1,
      st.itemLines ++ ["  - " ++ v.name ++ " (skipped, exists)"], st.fetched⟩ := by
  simp [villagersStep, existsNow, h2]

theorem villagersLoop_manifest (items : List VRec) :
    ∀ (ex0 : String → Bool) (dl : String → String → Except String Unit) (st : RunState),
    (villagersLoop ex0 dl items st).manifest =
      st.manifest ++ items.map (fun v => (v.name, villagerFilename v.name)) := by
  induction items with
  | nil => intro ex0 dl st; simp [villagersLoop]
  | cons v rest ih =>
    intro ex0 dl st
    have hstep : villagersLoop ex0 dl (v :: rest) st =
        villagersLoop ex0 dl rest (villagersStep ex0 dl st v) := rfl
    rw [hstep, ih, villagersStep_manifest, List.map_cons, List.append_assoc,
      List.singleton_append]

theorem villagersLoop_inv (items : List VRec) :
    ∀ (ex0 : String → Bool) (dl : String → String → Except String Unit) (st : RunState),
    (∀ v ∈ items, ex0 (joinPath OUT_DIR_VILLAGERS (villagerFilename v.name)) = true) →
    st.fetched = [] → st.downloaded = 0 → st.skipped = st.manifest.length →
    (villagersLoop ex0 dl items st).fetched = [] ∧
    (villagersLoop ex0 dl items st).downloaded = 0 ∧
    (villagersLoop ex0 dl items st).skipped = (villagersLoop ex0 dl items st).manifest.length := by
  induction items with
  | nil =>
    intro ex0 dl st _ hf hd hs
    exact ⟨hf, hd, by simpa [villagersLoop] using hs⟩
  | cons v rest ih =>
    intro ex0 dl st hex hf hd hs
    have hstep : villagersLoop ex0 dl (v :: rest) st =
        villagersLoop ex0 dl rest (villagersStep ex0 dl st v) := rfl
    rw [hstep]
    have hex0 : ex0 (joinPath OUT_DIR_VILLAGERS (villagerFilename v.name)) = true :=
      hex v (List.mem_cons_self v rest)
    rw [villagersStep_exists ex0 dl st v hex0]
    refine ih ex0 dl _ (fun x hx => hex x (List.mem_cons_of_mem v hx)) hf hd ?_
    simp [hs]

/-! Helper lemmas about the villagers dedup map and sort. -/

theorem mapGet_eq_none (m : List (String × VRec)) (k : String) :
    mapGet m k = none ↔ k ∉ m.map Prod.fst := by
  induction m with
  | nil => simp [mapGet]
  | cons p rest ih =>
    obtain ⟨k', v'⟩ := p
    by_cases h : k' = k
    · subst h; simp [mapGet]
    · simp [mapGet, h, ih, Ne.symm h]

theorem mapSet_fst_mem (m : List (String × VRec)) (k : String) (v : VRec)
    (h : k ∈ m.map Prod.fst) : (mapSet m k v).map Prod.fst = m.map Prod.fst := by
  induction m with
  | nil => simp at h
  | cons p rest ih =>
    obtain ⟨k', v'⟩ := p
    by_cases hk : k' = k
    · subst hk; simp [mapSet]
    · have hrest : k ∈ rest.map Prod.fst := by
        simp only [List.map_cons, List.mem_cons] at h
        rcases h with h | h
        · exact absurd h.symm hk
        · exact h
      simp [mapSet, hk, ih hrest]

theorem mapSet_fst_not_mem (m : List (String × VRec)) (k : String) (v : VRec)
    (h : k ∉ m.map Prod.fst) : (mapSet m k v).map Prod.fst = m.map Prod.fst ++ [k] := by
  induction m with
  | nil => simp [mapSet]
  | cons p rest ih =>
    obtain ⟨k', v'⟩ := p
    have hk : ¬ k' = k := fun he => h (by simp [he])
    have hrest : k ∉ rest.map Prod.fst := fun hr => h (by simp [hr])
    simp [mapSet, hk, ih hrest]

theorem villagerStep_fst (m : List (String × VRec)) (r : VRec) :
    (villagerStep m r).map Prod.fst =
      if r.name ∈ m.map Prod.fst then m.map Prod.fst else m.map Prod.fst ++ [r.name] := by
  cases hg : mapGet m r.name with
  | none =>
    have hnm : r.name ∉ m.map Prod.fst := (mapGet_eq_none m r.name).1 hg
    rw [if_neg hnm]
    simp only [villagerStep, hg]
    exact mapSet_fst_not_mem m r.name r hnm
  | some ex =>
    have hm : r.name ∈ m.map Prod.fst := by
      by_contra hnm
      have hnone := (mapGet_eq_none m r.name).2 hnm
      rw [hnone] at hg
      exact Option.noConfusion hg
    rw [if_pos hm]
    simp only [villagerStep, hg]
    by_cases hsq : (ex.isSq && !r.isSq) = true
    · rw [if_pos hsq]; exact mapSet_fst_mem m r.name r hm
    · rw [if_neg hsq]

theorem villagerStep_fst_nodup (m : List (String × VRec)) (r : VRec)
    (h : (m.map Prod.fst).Nodup) : ((villagerStep m r).map Prod.fst).Nodup := by
  by_cases hm : r.name ∈ m.map Prod.fst
  · rw [villagerStep_fst, if_pos hm]; exact h
  · rw [villagerStep_fst, if_neg hm]
    simp [List.nodup_append, h, hm]

theorem villagerFold_fst_nodup (recs : List VRec) :
    ∀ m : List (String × VRec), (m.map Prod.fst).Nodup →
    ((recs.foldl villagerStep m).map Prod.fst).Nodup := by
  induction recs with
  | nil => intro m h; exact h
  | cons r rest ih => intro m h; exact ih (villagerStep m r) (villagerStep_fst_nodup m r h)

theorem mapSet_mem (m : List (String × VRec)) (k : String) (v : VRec) :
    ∀ p ∈ mapSet m k v, p = (k, v) ∨ p ∈ m := by
  induction m with
  | nil =>
    intro p hp
    simp [mapSet] at hp
    exact Or.inl hp
  | cons q rest ih =>
    obtain ⟨k', v'⟩ := q
    intro p hp
    by_cases hk : k' = k
    · simp only [mapSet] at hp
      rw [if_pos hk] at hp
      rcases List.mem_cons.1 hp with hp | hp
      · exact Or.inl hp
      · exact Or.inr (List.mem_cons_of_mem _ hp)
    · simp only [mapSet] at hp
      rw [if_neg hk] at hp
      rcases List.mem_cons.1 hp with hp | hp
      · exact Or.inr (by simp [hp])
      · rcases ih p hp with h | h
        · exact Or.inl h
        · exact Or.inr (List.mem_cons_of_mem _ h)

theorem mapSet_names (m : List (String × VRec)) (k : String) (v : VRec)
    (hm : ∀ p ∈ m, (Prod.snd p).name = p.1) (hv : v.name = k) :
    ∀ p ∈ mapSet m k v, (Prod.snd p).name = p.1 := by
  intro p hp
  rcases mapSet_mem m k v p hp with h | h
  · subst h; simp [hv]
  · exact hm p h

theorem villagerStep_names (m : List (String × VRec)) (r : VRec)
    (hm : ∀ p ∈ m, (Prod.snd p).name = p.1) :
    ∀ p ∈ villagerStep m r, (Prod.snd p).name = p.1 := by
  intro p hp
  cases hg : mapGet m r.name with
  | none =>
    simp only [villagerStep, hg] at hp
    exact mapSet_names m r.name r hm rfl p hp
  | some ex =>
    simp only [villagerStep, hg] at hp
    by_cases hsq : (ex.isSq && !r.isSq) = true
    · rw [if_pos hsq] at hp
      exact mapSet_names m r.name r hm rfl p hp
    · rw [if_neg hsq] at hp
      exact hm p hp

theorem villagerFold_names (recs : List VRec) :
    ∀ m : List (String × VRec), (∀ p ∈ m, (Prod.snd p).name = p.1) →
    ∀ p ∈ recs.foldl villagerStep m, (Prod.snd p).name = p.1 := by
  induction recs with
  | nil => intro m hm; exact hm
  | cons r rest ih => intro m hm; exact ih (villagerStep m r) (villagerStep_names m r hm)

theorem insertSorted_perm (x : VRec) (l : List VRec) : (insertSorted x l).Perm (x :: l) := by
  induction l with
  | nil => simp [insertSorted]
  | cons y ys ih =>
    simp only [insertSorted]
    split
    · exact (ih.cons y).trans (List.Perm.swap x y ys)
    · exact List.Perm.refl _

theorem sortFold_perm (l : List VRec) :
    ∀ acc : List VRec, (l.foldl (fun a x => insertSorted x a) acc).Perm (acc ++ l) := by
  induction l with
  | nil => intro acc; simp
  | cons x xs ih =>
    intro acc
    have h1 := ih (insertSorted x acc)
    have h2 : (insertSorted x acc ++ xs).Perm ((x :: acc) ++ xs) :=
      (insertSorted_perm x acc).append_right xs
    have h3 : ((x :: acc) ++ xs).Perm (acc ++ x :: xs) := List.perm_middle.symm
    exact (h1.trans h2).trans h3

theorem sortVillagers_perm (l : List VRec) : (sortVillagers l).Perm l := by
  simpa [sortVillagers] using sortFold_perm l []

theorem villagersHarvest_names_nodup (pages : List ApiPage) :
    ((villagersHarvest pages).map VRec.name).Nodup := by
  have hfold := villagerFold_fst_nodup (pages.filterMap villagersExtractPage) [] (by simp)
  have hnames := villagerFold_names (pages.filterMap villagersExtractPage) [] (by simp)
  have hmapeq :
      (((pages.filterMap villagersExtractPage).foldl villagerStep []).map Prod.snd).map VRec.name
        = ((pages.filterMap villagersExtractPage).foldl villagerStep []).map Prod.fst := by
    rw [List.map_map]
    exact List.map_congr_left (fun p hp => hnames p hp)
  have hvals :
      ((((pages.filterMap villagersExtractPage).foldl villagerStep []).map Prod.snd).map
        VRec.name).Nodup := by
    rw [hmapeq]; exact hfold
  have hperm := sortVillagers_perm
    (((pages.filterMap villagersExtractPage).foldl villagerStep []).map Prod.snd)
  exact ((hperm.map VRec.name).nodup_iff).2 hvals

/-! Helper lemmas about the downloader. -/

theorem villagersExtractPage_pageOf (t u : String) :
    villagersExtractPage (pageOf t u) =
      (parseVillagerTitle t).map fun p => ⟨p.1, u, p.2⟩ := by
  cases hp : parseVillagerTitle t with
  | none => simp [villagersExtractPage, pageOf, hp]
  | some p => obtain ⟨n, sq⟩ := p; simp [villagersExtractPage, pageOf, hp]

theorem downloadImage_fail_keeps_file (env : String → Option NetResp) :
    ∀ (n : Nat) (url : String) (f f' : Option String) (e : DlErr),
    downloadImage env n url f = some (Except.error e, f') →
    (e = DlErr.transport ∨ ∃ c, e = DlErr.httpStatus c) → f' = f := by
  intro n
  induction n with
  | zero =>
    intro url f f' e h _
    simp [downloadImage] at h
  | succ k ih =>
    intro url f f' e h he
    cases henv : env url with
    | none =>
      simp only [downloadImage, henv, Option.some.injEq, Prod.mk.injEq] at h
      exact h.2.symm
    | some r =>
      simp only [downloadImage, henv] at h
      by_cases h301 : r.statusCode = 301 ∨ r.statusCode = 302
      · rw [if_pos h301] at h
        exact ih _ f f' e h he
      · rw [if_neg h301] at h
        by_cases h200 : r.statusCode ≠ 200
        · rw [if_pos h200] at h
          simp only [Option.some.injEq, Prod.mk.injEq] at h
          exact h.2.symm
        · rw [if_neg h200] at h
          by_cases hint : r.interrupted = true
          · rw [if_pos hint] at h
            simp only [Option.some.injEq, Prod.mk.injEq] at h
            have hse : DlErr.streamErr = e := by
              have := h.1
              exact Except.error.inj this
            rcases he with he | ⟨c, he⟩ <;> rw [← hse] at he <;> exact DlErr.noConfusion he
          · rw [if_neg hint] at h
            simp only [Option.some.injEq, Prod.mk.injEq] at h
            exact absurd h.1 (by simp)

theorem dedupPairs_cons_ne_nil (r : RawImage) (rest : List RawImage) :
    dedupPairs [] (r :: rest) ≠ [] := by
  simp [dedupPairs]

/-- C1: the claim says every key/value pair of a response's continue field is
merged verbatim into the next request's parameters. The code instead reads
the fields named key and value of the continue object, which a MediaWiki
continue mapping does not carry, so for the continue mapping gimcontinue to
abc the next request carries the single pair undefined/undefined and not the
continuation pair; pagination can therefore never advance, contradicting the
scripts' stated purpose of fetching all images. -/
theorem c1_continuation_mishandled :
    paramsWithContinue (API_PARAMS PAGE_TITLE_FUNKO) (some [("gimcontinue", "abc")]) =
      API_PARAMS PAGE_TITLE_FUNKO ++ [("undefined", "undefined")] ∧
    ("gimcontinue", "abc") ∉
      paramsWithContinue (API_PARAMS PAGE_TITLE_FUNKO) (some [("gimcontinue", "abc")]) := by
  decide

/-- C2 counterexample: in fetch-villagers.js the harvest call is not guarded
by any try/catch and there is no fallback list, so a run whose paginated
query driver fails aborts with the error and writes no manifest at all,
refuting the claim for that script. -/
theorem c2_fallback_counterexample :
    villagersMain (Except.error "HarvestError") noFiles dlAllOk =
      Except.error "HarvestError" := rfl

/-- C2 amended: only the funko harvester substitutes the hard-coded fallback
list when the driver fails, and then completes with a non-empty manifest; a
zero-item success does not activate the fallback and yields an empty
manifest; the villagers harvester has no fallback and a driver failure
aborts the run without writing a manifest. -/
theorem c2_fallback_amended :
    (∀ (e : String) (ex0 : String → Bool) (dl : String → String → Except String Unit),
      (funkoMain (Except.error e) ex0 dl).fallbackUsed = true ∧
      (funkoMain (Except.error e) ex0 dl).state.manifest ≠ []) ∧
    (∀ (ex0 : String → Bool) (dl : String → String → Except String Unit),
      (funkoMain (Except.ok []) ex0 dl).fallbackUsed = false ∧
      (funkoMain (Except.ok []) ex0 dl).state.manifest = []) ∧
    (∀ (e : String) (ex0 : String → Bool) (dl : String → String → Except String Unit),
      villagersMain (Except.error e) ex0 dl = Except.error e) := by
  refine ⟨fun e ex0 dl => ⟨rfl, ?_⟩, fun ex0 dl => ⟨rfl, rfl⟩, fun e ex0 dl => rfl⟩
  show (funkoLoop ex0 dl getFallbackImages initState).manifest ≠ []
  rw [(funkoLoop_manifest_seen getFallbackImages ex0 dl initState).1]
  simp only [initState, List.nil_append]
  exact dedupPairs_cons_ne_nil _ _

/-- C3: the claim says the downloader enforces a finite redirect-hop bound
and fails with RedirectLoopError beyond it. The code recurses on every
301/302 with no counter and no such error exists in it: six consecutive 302
responses followed by a 200 are all followed and the download succeeds, and
on a cyclic redirect chain the recursion never terminates for any depth
bound of the model. -/
theorem c3_unbounded_redirects :
    downloadImage chainEnv 10 "u0" none = some (Except.ok (), some "BODY") ∧
    ∀ (n : Nat) (url : String) (f : Option String), downloadImage loopEnv n url f = none := by
  refine ⟨rfl, ?_⟩
  intro n
  induction n with
  | zero => intro url f; rfl
  | succ k ih =>
    intro url f
    simp only [downloadImage, loopEnv]
    rw [if_pos (Or.inr trivial)]
    exact ih "u0" f

/-- C4: the claim says every failed download leaves the destination
unchanged or absent. The code creates the write stream at the destination as
soon as a 200 arrives and streams directly into it, so a stream interrupted
after delivering the bytes ab fails with a stream error while the
destination, previously absent, now holds the partial file ab. -/
theorem c4_truncated_file :
    downloadImage interruptedEnv 1 "u" none =
      some (Except.error DlErr.streamErr, some "ab") ∧
    some "ab" ≠ (none : Option String) :=
  ⟨rfl, by simp⟩

/-- C5 counterexample: for five items where the third download fails with
HTTP 500, the run indeed continues and counts 4 downloaded and 0 skipped
with all 5 manifest entries, but the terminal summary line prints only the
downloaded and skipped counters; no character 1 occurs anywhere in it, so
the failed count of 1 the claim requires is not reported. -/
theorem c5_no_failed_count :
    (funkoMain (Except.ok items5) noFiles dlFail3).state.downloaded = 4 ∧
    (funkoMain (Except.ok items5) noFiles dlFail3).state.skipped = 0 ∧
    (funkoMain (Except.ok items5) noFiles dlFail3).state.manifest.length = 5 ∧
    (funkoMain (Except.ok items5) noFiles dlFail3).summary =
      "\nDone! Downloaded 4, skipped 0." ∧
    ((funkoMain (Except.ok items5) noFiles dlFail3).summary.toList.all
      fun c => c != '1') = true := by
  refine ⟨by decide, by decide, by decide, rfl, by decide⟩

/-- C5 amended: with five items and the third download failing with HTTP
500, the remaining items are still processed, the manifest lists all five
items with their canonical filenames, the per-item lines report the one
failure, and the summary reports 4 downloaded and 0 skipped; the failed
count appears only as the per-item error line, never as a summary counter. -/
theorem c5_partial_failure_amended :
    (funkoMain (Except.ok items5) noFiles dlFail3).state.manifest =
      [("N1", "N1.png"), ("N2", "N2.png"), ("N3", "N3.png"),
       ("N4", "N4.png"), ("N5", "N5.png")] ∧
    (funkoMain (Except.ok items5) noFiles dlFail3).state.downloaded = 4 ∧
    (funkoMain (Except.ok items5) noFiles dlFail3).state.skipped = 0 ∧
    (funkoMain (Except.ok items5) noFiles dlFail3).state.itemLines =
      ["  ✓ N1", "  ✓ N2", "  ✗ N3: HTTP 500", "  ✓ N4", "  ✓ N5"] ∧
    (funkoMain (Except.ok items5) noFiles dlFail3).summary =
      "\nDone! Downloaded 4, skipped 0." := by
  refine ⟨by decide, by decide, by decide, by decide, rfl⟩

/-- C6: when two raw records normalize to the same subject, one the primary
non-square poster and the other the square variant, exactly one record for
that subject survives the villagers extraction and it is the non-square one,
in either arrival order; and a second record of the same preferred non-square
class does not overwrite the first one seen. -/
theorem c6_dedup_preference (t1 t2 n u1 u2 : String)
    (h1 : parseVillagerTitle t1 = some (n, false)) :
    (parseVillagerTitle t2 = some (n, true) →
      villagersHarvest [pageOf t1 u1, pageOf t2 u2] = [⟨n, u1, false⟩] ∧
      villagersHarvest [pageOf t2 u2, pageOf t1 u1] = [⟨n, u1, false⟩]) ∧
    (parseVillagerTitle t2 = some (n, false) →
      villagersHarvest [pageOf t1 u1, pageOf t2 u2] = [⟨n, u1, false⟩]) := by
  constructor
  · intro h2
    constructor
    · simp [villagersHarvest, villagersExtractPage_pageOf, h1, h2, villagerStep,
        mapGet, mapSet, sortVillagers, insertSorted]
    · simp [villagersHarvest, villagersExtractPage_pageOf, h1, h2, villagerStep,
        mapGet, mapSet, sortVillagers, insertSorted]
  · intro h2
    simp [villagersHarvest, villagersExtractPage_pageOf, h1, h2, villagerStep,
      mapGet, mapSet, sortVillagers, insertSorted]

/-- C6 witness: the concrete pair of titles File:NH-Ribbot poster.png and
File:NH-Ribbot poster sq.png yields exactly the non-square record for
Ribbot, in either arrival order. -/
theorem c6_dedup_preference_witness :
    villagersHarvest [pageOf "File:NH-Ribbot poster.png" "w1",
      pageOf "File:NH-Ribbot poster sq.png" "w2"] = [⟨"Ribbot", "w1", false⟩] ∧
    villagersHarvest [pageOf "File:NH-Ribbot poster sq.png" "w2",
      pageOf "File:NH-Ribbot poster.png" "w1"] = [⟨"Ribbot", "w1", false⟩] :=
  (c6_dedup_preference "File:NH-Ribbot poster.png" "File:NH-Ribbot poster sq.png"
    "Ribbot" "w1" "w2" (by decide)).1 (by decide)

/-- C7: when every item's artifact already exists, both orchestrators fetch
no binary at all, count zero downloads, count every manifest entry as
skipped, and the serialized manifest bytes are identical to those of a run
under any other file-system and download environment. -/
theorem c7_skip_idempotence (images : List RawImage) (vimages : List VRec)
    (ex0 : String → Bool) (dl : String → String → Except String Unit)
    (hfu : ∀ r ∈ images, ex0 (joinPath OUT_DIR_FUNKO (safeFilename r.filename)) = true)
    (hvi : ∀ v ∈ vimages, ex0 (joinPath OUT_DIR_VILLAGERS (villagerFilename v.name)) = true) :
    ((funkoMain (Except.ok images) ex0 dl).state.fetched = [] ∧
     (funkoMain (Except.ok images) ex0 dl).state.downloaded = 0 ∧
     (funkoMain (Except.ok images) ex0 dl).state.skipped =
       (funkoMain (Except.ok images) ex0 dl).state.manifest.length ∧
     ∀ (ex1 : String → Bool) (dl1 : String → String → Except String Unit),
       manifestJson (funkoMain (Except.ok images) ex0 dl).state.manifest =
         manifestJson (funkoMain (Except.ok images) ex1 dl1).state.manifest) ∧
    ((villagersMain (Except.ok vimages) ex0 dl).map (fun res => res.state.fetched) =
       Except.ok [] ∧
     (villagersMain (Except.ok vimages) ex0 dl).map (fun res => res.state.downloaded) =
       Except.ok 0 ∧
     (villagersMain (Except.ok vimages) ex0 dl).map (fun res => res.state.skipped) =
       (villagersMain (Except.ok vimages) ex0 dl).map (fun res => res.state.manifest.length) ∧
     ∀ (ex1 : String → Bool) (dl1 : String → String → Except String Unit),
       (villagersMain (Except.ok vimages) ex0 dl).map
           (fun res => manifestJson res.state.manifest) =
         (villagersMain (Except.ok vimages) ex1 dl1).map
           (fun res => manifestJson res.state.manifest)) := by
  have hfun := funkoLoop_inv images ex0 dl initState hfu rfl rfl rfl
  have hvinv := villagersLoop_inv vimages ex0 dl initState hvi rfl rfl rfl
  constructor
  · refine ⟨?_, ?_, ?_, ?_⟩
    · show (funkoLoop ex0 dl images initState).fetched = []
      exact hfun.1
    · show (funkoLoop ex0 dl images initState).downloaded = 0
      exact hfun.2.1
    · show (funkoLoop ex0 dl images initState).skipped =
        (funkoLoop ex0 dl images initState).manifest.length
      exact hfun.2.2
    · intro ex1 dl1
      show manifestJson (funkoLoop ex0 dl images initState).manifest =
        manifestJson (funkoLoop ex1 dl1 images initState).manifest
      have hm1 := (funkoLoop_manifest_seen images ex0 dl initState).1
      have hm2 := (funkoLoop_manifest_seen images ex1 dl1 initState).1
      exact congrArg manifestJson (hm1.trans hm2.symm)
  · refine ⟨?_, ?_, ?_, ?_⟩
    · show Except.ok (villagersLoop ex0 dl vimages initState).fetched =
        (Except.ok [] : Except String (List String))
      exact congrArg Except.ok hvinv.1
    · show Except.ok (villagersLoop ex0 dl vimages initState).downloaded =
        (Except.ok 0 : Except String Nat)
      exact congrArg Except.ok hvinv.2.1
    · show Except.ok (villagersLoop ex0 dl vimages initState).skipped =
        Except.ok (villagersLoop ex0 dl vimages initState).manifest.length
      exact congrArg Except.ok hvinv.2.2
    · intro ex1 dl1
      show Except.ok (manifestJson (villagersLoop ex0 dl vimages initState).manifest) =
        Except.ok (manifestJson (villagersLoop ex1 dl1 vimages initState).manifest)
      have h1 := villagersLoop_manifest vimages ex0 dl initState
      have h2 := villagersLoop_manifest vimages ex1 dl1 initState
      exact congrArg (fun m => Except.ok (manifestJson m)) (h1.trans h2.symm)

/-- C7 witness: one funko item and one villager with every file present skip
and fetch nothing. -/
theorem c7_skip_idempotence_witness :
    (funkoMain (Except.ok [item 1]) allFiles dlAllOk).state.fetched = [] ∧
    (funkoMain (Except.ok [item 1]) allFiles dlAllOk).state.downloaded = 0 :=
  ⟨(c7_skip_idempotence [item 1] [⟨"A", "u", false⟩] allFiles dlAllOk
      (fun _ _ => rfl) (fun _ _ => rfl)).1.1,
   (c7_skip_idempotence [item 1] [⟨"A", "u", false⟩] allFiles dlAllOk
      (fun _ _ => rfl) (fun _ _ => rfl)).1.2.1⟩

/-- C8 counterexample: a single item whose file is absent and whose download
fails is still recorded in the persisted manifest, with nothing downloaded
and no file on disk, refuting the claim that every manifest entry has its
binary downloaded this run or already present. -/
theorem c8_manifest_counterexample :
    (funkoMain (Except.ok [item 1]) noFiles dlAllFail).state.manifest = [("N1", "N1.png")] ∧
    (funkoMain (Except.ok [item 1]) noFiles dlAllFail).state.downloaded = 0 ∧
    (funkoMain (Except.ok [item 1]) noFiles dlAllFail).state.files = [] ∧
    noFiles (joinPath OUT_DIR_FUNKO "N1.png") = false := by
  decide

/-- C8 amended: every manifest entry corresponds to an item of the
deduplicated item list of the run, the harvested list or the fallback list,
recorded with its intended canonical filename whether or not its download
succeeded or its file exists, matching the always-write finalization: the
manifest is a pure function of the item list, independent of the
file-system and download environment. -/
theorem c8_manifest_amended :
    (∀ (images : List RawImage) (ex0 : String → Bool)
       (dl : String → String → Except String Unit),
      (funkoMain (Except.ok images) ex0 dl).state.manifest = dedupPairs [] images) ∧
    (∀ (e : String) (ex0 : String → Bool) (dl : String → String → Except String Unit),
      (funkoMain (Except.error e) ex0 dl).state.manifest = dedupPairs [] getFallbackImages) ∧
    (∀ (vimages : List VRec) (ex0 : String → Bool)
       (dl : String → String → Except String Unit),
      (villagersMain (Except.ok vimages) ex0 dl).map (fun res => res.state.manifest) =
        Except.ok (vimages.map fun v => (v.name, villagerFilename v.name))) := by
  refine ⟨?_, ?_, ?_⟩
  · intro images ex0 dl
    show (funkoLoop ex0 dl images initState).manifest = dedupPairs [] images
    rw [(funkoLoop_manifest_seen images ex0 dl initState).1]
    simp [initState]
  · intro e ex0 dl
    show (funkoLoop ex0 dl getFallbackImages initState).manifest =
      dedupPairs [] getFallbackImages
    rw [(funkoLoop_manifest_seen getFallbackImages ex0 dl initState).1]
    simp [initState]
  · intro vimages ex0 dl
    show Except.ok (villagersLoop ex0 dl vimages initState).manifest = _
    rw [villagersLoop_manifest vimages ex0 dl initState]
    simp [initState]

/-- C9 counterexample: the villagers harvester deduplicates on the captured
display name, not on the canonical filename: the two titles with names
differing only as space versus underscore both survive and map to the same
canonical filename, so the persisted manifest carries a duplicated
filename. -/
theorem c9_filename_collision_counterexample :
    villagersHarvest vpagesCollide = [⟨"A B", "ua", false⟩, ⟨"A_B", "ub", false⟩] ∧
    (villagersMain (Except.ok (villagersHarvest vpagesCollide)) noFiles dlAllOk).map
        (fun res => res.state.manifest) =
      Except.ok [("A B", "NH-A_B_poster.png"), ("A_B", "NH-A_B_poster.png")] ∧
    ¬ ([("A B", "NH-A_B_poster.png"), ("A_B", "NH-A_B_poster.png")].map Prod.snd).Nodup :=
  ⟨by decide, rfl, by decide⟩

/-- C9 amended: in the funko harvester the manifest's canonical filenames
are pairwise distinct in every run, deduplication being keyed on the safe
filename; in the villagers harvester deduplication is keyed on the display
name instead, so display names are pairwise distinct while canonical
filenames may collide. -/
theorem c9_dedup_keys_amended :
    (∀ (harvest : Except String (List RawImage)) (ex0 : String → Bool)
       (dl : String → String → Except String Unit),
      ((funkoMain harvest ex0 dl).state.manifest.map Prod.snd).Nodup) ∧
    (∀ pages : List ApiPage, ((villagersHarvest pages).map VRec.name).Nodup) := by
  refine ⟨?_, villagersHarvest_names_nodup⟩
  intro harvest ex0 dl
  rw [funkoMain_state, (funkoLoop_manifest_seen _ ex0 dl initState).1]
  simp only [initState, List.nil_append]
  exact dedupPairs_snd_nodup _ []

/-- C10: the JSON fetcher resolves for any response whose body parses,
whatever the status code; a response whose parsed body lacks query.pages and
carries no continue object makes the driver succeed with zero items, so the
fallback is not activated and the empty manifest is serialized as the empty
JSON array. -/
theorem c10_status_ignored (parse : String → Option ApiData) (body : String) (code : Nat)
    (d : ApiData) (hp : parse body = some d) (hq : pagesOf d = [])
    (hc : d.«continue» = none) :
    fetchJson parse ⟨code, body, false⟩ = Except.ok d ∧
    runDriver (fun dd => funkoExtract (pagesOf dd)) [fetchJson parse ⟨code, body, false⟩] [] =
      some (Except.ok []) ∧
    ∀ (ex0 : String → Bool) (dl : String → String → Except String Unit),
      (funkoMain (Except.ok []) ex0 dl).fallbackUsed = false ∧
      (funkoMain (Except.ok []) ex0 dl).state.manifest = [] ∧
      manifestJson (funkoMain (Except.ok []) ex0 dl).state.manifest = "[]" := by
  have hf : fetchJson parse ⟨code, body, false⟩ = Except.ok d := by
    simp [fetchJson, hp]
  refine ⟨hf, ?_, fun ex0 dl => ⟨rfl, rfl, rfl⟩⟩
  rw [hf]
  simp [runDriver, funkoExtract, hq, hc]

/-- C10 witness: a 503 outage response with a parseable body lacking
query.pages resolves and drives a zero-item harvest. -/
theorem c10_status_ignored_witness :
    fetchJson outageParse ⟨503, "outage", false⟩ = Except.ok outageData ∧
    runDriver (fun dd => funkoExtract (pagesOf dd))
      [fetchJson outageParse ⟨503, "outage", false⟩] [] = some (Except.ok []) :=
  ⟨(c10_status_ignored outageParse "outage" 503 outageData (by decide) rfl rfl).1,
   (c10_status_ignored outageParse "outage" 503 outageData (by decide) rfl rfl).2.1⟩

end Scripts
